import Mathlib

/-!
Verification of the clinic billing and resource-consistency engine.

This file gives a shallow embedding of the derived-state maintenance code of
the veterinary-clinic backend (clinic/models.py and clinic/serializers.py):
the pricing ledger for medical cards, the payment settlement pipeline, the
stationary-room allocator, the nurse/doctor task completion signals, and the
daily salary recompute.  Monetary amounts (Python Decimal, exact arithmetic)
are modelled as integers; timestamps and dates as natural numbers; nullable
columns as Option.  Each Django save pipeline (pre_save signal, database
write, post_save signals in registration order) is embedded as one pure
function from the previous database state and the instance being saved to the
next database state.
-/

namespace Clinic

/-! ## Pricing ledger: MedicalCard.update_total_fee and its triggering signals -/

/-- A clinic service: base `price` and optional `price_up_to` upper bound
(clinic/models.py, class Service). -/
structure Service where
  sid : Nat
  price : Int
  price_up_to : Option Int
  deriving DecidableEq, Repr

/-- A MedicalCardService row: a selected service on a card with the chosen
price (clinic/models.py, class MedicalCardService). -/
structure ServiceLink where
  serviceId : Nat
  price : Int
  deriving DecidableEq, Repr

/-- The billing-relevant state of a MedicalCard: its priced selection rows
(`service_links`), its plain M2M `services` membership, its medicines
(represented by their prices), and the stored derived `total_fee`. -/
structure FeeCard where
  service_links : List ServiceLink
  services : List Service
  medicines : List Int
  total_fee : Int
  deriving DecidableEq, Repr

/-- `MedicalCard.update_total_fee` (clinic/models.py lines 187-198): sum the
selected prices from the MedicalCardService rows when any exist, otherwise
fall back to the base prices of the plain M2M services; always add the
medicine prices; store the result in `total_fee` via a narrow update. -/
def FeeCard.update_total_fee (c : FeeCard) : FeeCard :=
  let service_total : Int :=
    if c.service_links ≠ [] then (c.service_links.map (·.price)).sum
    else (c.services.map (·.price)).sum
  let medicine_total : Int := c.medicines.sum
  { c with total_fee := service_total + medicine_total }

/-- `MedicalCardService.objects.update_or_create(medical_card=card,
service=svc, defaults={"price": price})`: replace the row for the same
service if present, else insert a new row. -/
def setLink (ls : List ServiceLink) (l : ServiceLink) : List ServiceLink :=
  if ls.any (fun x => x.serviceId = l.serviceId) then
    ls.map (fun x => if x.serviceId = l.serviceId then l else x)
  else ls ++ [l]

/-- The changes to a card's service-selection set or medicine set that the
signal receivers react to: saving or deleting a MedicalCardService row
(post_save / post_delete receivers, clinic/models.py lines 412-419), and
add / remove / clear on the medicines M2M (m2m_changed receiver for
`MedicalCard.medicines.through`, clinic/models.py lines 353-357). -/
inductive FeeEvent where
  | linkSave (l : ServiceLink)
  | linkDelete (serviceId : Nat)
  | medicineAdd (price : Int)
  | medicineRemove (price : Int)
  | medicineClear
  deriving DecidableEq, Repr

/-- The raw mutation performed by a `FeeEvent`, before any signal fires. -/
def FeeCard.mutate (c : FeeCard) : FeeEvent → FeeCard
  | .linkSave l => { c with service_links := setLink c.service_links l }
  | .linkDelete sid =>
      { c with service_links := c.service_links.filter (fun x => ¬ x.serviceId = sid) }
  | .medicineAdd p => { c with medicines := c.medicines ++ [p] }
  | .medicineRemove p => { c with medicines := c.medicines.erase p }
  | .medicineClear => { c with medicines := [] }

/-- A selection change followed by the recompute that its signal receiver
performs: every event in `FeeEvent` has a registered receiver that calls
`update_total_fee` (clinic/models.py lines 353-357 and 412-419). -/
def FeeCard.applyEvent (c : FeeCard) (e : FeeEvent) : FeeCard :=
  (c.mutate e).update_total_fee

/-- The fee formula of the specification, evaluated on a card state: sum of
the prices stored on the ServiceSelection rows (or, when no priced selection
rows exist, the base prices of the services in the plain membership set),
plus the sum of the medicine prices. -/
def feeSpec (c : FeeCard) : Int :=
  (if c.service_links ≠ [] then (c.service_links.map (·.price)).sum
   else (c.services.map (·.price)).sum)
  + c.medicines.sum

/-- Claim C1: after any change (add, remove, or clear) to a card's
service-selection set or its medicine set, the stored `total_fee` equals the
sum of the prices on its ServiceSelection rows (or, with no priced rows, the
base prices of its plain service membership) plus the sum of its medicine
prices. -/
theorem c1_total_fee_invariant (c : FeeCard) (e : FeeEvent) :
    (c.applyEvent e).total_fee = feeSpec (c.applyEvent e) := by
  cases e <;>
    simp [FeeCard.applyEvent, FeeCard.mutate, FeeCard.update_total_fee, feeSpec]

/-! ## Payment settlement: MedicalCard.save, set_card_paid_on_payment,
mark_payment_transition, update_payment_day_on_paid -/

/-- MedicalCard status choices (clinic/models.py, MedicalCardStatus). -/
inductive CardStatus where
  | pending
  | inProgress
  | paid
  deriving DecidableEq, Repr

/-- Payment status choices (clinic/models.py, PaymentStatus). -/
inductive PayStatus where
  | pending
  | paid
  deriving DecidableEq, Repr

/-- The payment-relevant state of a MedicalCard: status, the nullable
`closed_at` timestamp, and the stored `total_fee`. -/
structure PayCard where
  status : CardStatus
  closed_at : Option Nat
  total_fee : Int
  deriving DecidableEq, Repr

/-- `MedicalCard.save` (clinic/models.py lines 200-207): stamp `closed_at`
with the current time when status becomes PAID, clear it when the card is
reopened to a non-PAID status. -/
def PayCard.save (c : PayCard) (now : Nat) : PayCard :=
  if c.status = .paid ∧ c.closed_at = none then { c with closed_at := some now }
  else if c.status ≠ .paid ∧ c.closed_at ≠ none then { c with closed_at := none }
  else c

/-- A Payment row: status and amount.  `amount = none` models a NULL amount;
the Django field has `default=Decimal("0")`, so both `none` and `some 0`
count as unset (`instance.amount is None or instance.amount == 0`). -/
structure PaymentRec where
  status : PayStatus
  amount : Option Int
  deriving DecidableEq, Repr

/-- The database state a payment save operates on: the stored payment row
(none before creation), the card it settles, and today's `PaymentDay.price`. -/
structure PayState where
  stored : Option PaymentRec
  card : PayCard
  paymentDayPrice : Int
  deriving DecidableEq, Repr

/-- `mark_payment_transition` (pre_save, clinic/models.py lines 383-393):
`_became_paid` is true for a new object created as PAID, or for an existing
object whose previous status was not PAID while the saved status is PAID. -/
def becamePaid (stored : Option PaymentRec) (inst : PaymentRec) : Prop :=
  match stored with
  | none => inst.status = .paid
  | some prev => prev.status ≠ .paid ∧ inst.status = .paid

instance (stored : Option PaymentRec) (inst : PaymentRec) :
    Decidable (becamePaid stored inst) := by
  unfold becamePaid; cases stored <;> infer_instance

/-- Python truthiness on a nullable amount: `instance.amount is None or
instance.amount == 0`. -/
def amountUnset (a : Option Int) : Prop := a = none ∨ a = some 0

instance (a : Option Int) : Decidable (amountUnset a) := by
  unfold amountUnset; infer_instance

/-- Python `instance.amount or fallback`: the fallback is used when the
amount is None or equals zero. -/
def amountOr (a : Option Int) (fallback : Int) : Int :=
  match a with
  | none => fallback
  | some x => if x = 0 then fallback else x

/-- A full `Payment.save()` pipeline (clinic/models.py): the pre_save
receiver `mark_payment_transition` snapshots the previous status, the row is
written, then the post_save receivers run in registration order:
`set_card_paid_on_payment` (lines 365-379) backfills a zero/NULL amount from
the card's `total_fee` via a queryset update (the in-memory instance keeps
its old amount) and sets a non-PAID card to PAID through `MedicalCard.save`;
`update_payment_day_on_paid` (lines 396-408) increments today's
`PaymentDay.price` by `instance.amount or card.total_fee` only when the save
was a transition to PAID and the effective amount is non-zero. -/
def paymentSave (st : PayState) (inst : PaymentRec) (now : Nat) : PayState :=
  let became := becamePaid st.stored inst
  let created := st.stored = none
  -- database write of the instance row
  let stored1 : PaymentRec := inst
  -- post_save receiver 1: set_card_paid_on_payment
  let stored2 : PaymentRec :=
    if inst.status = .paid ∧ amountUnset inst.amount then
      { stored1 with amount := some st.card.total_fee }
    else stored1
  let card2 : PayCard :=
    if inst.status = .paid ∧ st.card.status ≠ .paid then
      PayCard.save { st.card with status := .paid } now
    else st.card
  -- post_save receiver 2: update_payment_day_on_paid
  let transitioned := became ∨ (created ∧ inst.status = .paid)
  let amt := amountOr inst.amount card2.total_fee
  let pd :=
    if transitioned ∧ amt ≠ 0 then st.paymentDayPrice + amt
    else st.paymentDayPrice
  { stored := some stored2, card := card2, paymentDayPrice := pd }

/-- Claim C2: a payment save in which status transitions from non-paid to
paid (including creation already paid) with amount zero or unset backfills
the stored amount from the card's `total_fee` and increments today's
`PaymentDay.price` by that backfilled amount exactly once; re-saving an
already-paid payment with no status change leaves `PaymentDay` unchanged. -/
theorem c2_payment_day_increment (st : PayState) (inst : PaymentRec) (now : Nat) :
    (becamePaid st.stored inst → amountUnset inst.amount →
      (paymentSave st inst now).paymentDayPrice
          = st.paymentDayPrice + st.card.total_fee
        ∧ (paymentSave st inst now).stored
          = some { inst with amount := some st.card.total_fee })
    ∧ (∀ prev, st.stored = some prev → prev.status = .paid → inst.status = .paid →
        (paymentSave st inst now).paymentDayPrice = st.paymentDayPrice) := by
  constructor
  · intro hb hu
    have hpaid : inst.status = .paid := by
      unfold becamePaid at hb
      cases hs : st.stored with
      | none => rw [hs] at hb; exact hb
      | some prev => rw [hs] at hb; exact hb.2
    constructor
    · unfold paymentSave
      rcases hu with h | h <;> by_cases hc : st.card.status = .paid <;>
        by_cases hz : st.card.total_fee = 0 <;>
          by_cases hca : st.card.closed_at = none <;>
            simp [h, hpaid, hc, hz, hca, amountOr, hb, PayCard.save, amountUnset]
    · unfold paymentSave
      simp [hpaid, hu]
  · intro prev hs hprev hinst
    unfold paymentSave
    have hnb : ¬ becamePaid st.stored inst := by
      unfold becamePaid
      rw [hs]
      simp [hprev]
    have hnc : ¬ st.stored = none := by simp [hs]
    simp [hnb, hnc]

/-- Witness for C2 at concrete inputs: a pending payment over a card with
`total_fee = 140`, re-saved as paid with amount 0, pushes today's
PaymentDay from 10 to 150 and stores amount 140; then re-saving the
already-paid row leaves PaymentDay at 150. -/
theorem c2_payment_day_increment_witness :
    (paymentSave
        ⟨some ⟨.pending, some 0⟩, ⟨.pending, none, 140⟩, 10⟩
        ⟨.paid, some 0⟩ 7).paymentDayPrice = 10 + 140
      ∧ (paymentSave
          ⟨some ⟨.paid, some 140⟩, ⟨.paid, some 3, 140⟩, 150⟩
          ⟨.paid, some 140⟩ 8).paymentDayPrice = 150 := by
  constructor
  · exact ((c2_payment_day_increment
      ⟨some ⟨.pending, some 0⟩, ⟨.pending, none, 140⟩, 10⟩
      ⟨.paid, some 0⟩ 7).1 (by decide) (by decide)).1
  · exact (c2_payment_day_increment
      ⟨some ⟨.paid, some 140⟩, ⟨.paid, some 3, 140⟩, 150⟩
      ⟨.paid, some 140⟩ 8).2 ⟨.paid, some 140⟩ rfl rfl rfl

/-- Claim C9: after any card save, `closed_at` is non-null exactly when the
card status is paid; and a payment saved as paid forces the card's status to
paid, as a no-op when the card is already paid. -/
theorem c9_closed_at_iff_paid (c : PayCard) (now : Nat)
    (st : PayState) (inst : PaymentRec) :
    ((c.save now).closed_at ≠ none ↔ c.status = .paid)
    ∧ (inst.status = .paid → (paymentSave st inst now).card.status = .paid)
    ∧ (st.card.status = .paid → (paymentSave st inst now).card = st.card) := by
  refine ⟨?_, ?_, ?_⟩
  · unfold PayCard.save
    by_cases hs : c.status = .paid
    · by_cases hc : c.closed_at = none
      · simp [hs, hc]
      · simp [hs, hc]
    · by_cases hc : c.closed_at = none
      · simp [hs, hc]
      · simp [hs, hc]
  · intro hp
    unfold paymentSave
    by_cases hc : st.card.status = .paid
    · simp [hp, hc]
    · simp [hp, hc, PayCard.save]
      by_cases hca : st.card.closed_at = none <;> simp [hca]
  · intro hc
    unfold paymentSave
    simp [hc]

/-- Witness for C9 at concrete inputs: a pending card saved at time 4 keeps
`closed_at = none`; a paid payment over a pending card leaves the card
paid; a paid card is untouched by a further payment save. -/
theorem c9_closed_at_iff_paid_witness :
    ¬ ((PayCard.save ⟨.pending, none, 50⟩ 4).closed_at ≠ none)
      ∧ (paymentSave ⟨none, ⟨.pending, none, 50⟩, 0⟩
          ⟨.paid, some 50⟩ 4).card.status = .paid
      ∧ (paymentSave ⟨some ⟨.paid, some 50⟩, ⟨.paid, some 9, 50⟩, 0⟩
          ⟨.paid, some 50⟩ 4).card = ⟨.paid, some 9, 50⟩ := by
  refine ⟨?_, ?_, ?_⟩
  · intro h
    exact absurd
      ((c9_closed_at_iff_paid ⟨.pending, none, 50⟩ 4
        ⟨none, ⟨.pending, none, 50⟩, 0⟩ ⟨.paid, some 50⟩).1.mp h)
      (by decide)
  · exact (c9_closed_at_iff_paid ⟨.pending, none, 50⟩ 4
      ⟨none, ⟨.pending, none, 50⟩, 0⟩ ⟨.paid, some 50⟩).2.1 rfl
  · exact (c9_closed_at_iff_paid ⟨.paid, some 9, 50⟩ 4
      ⟨some ⟨.paid, some 50⟩, ⟨.paid, some 9, 50⟩, 0⟩ ⟨.paid, some 50⟩).2.2 rfl

/-! ## Nurse tasks: set_done_at_on_completion, increment_nurse_income_on_task_done,
TaskSerializer.validate -/

/-- The completion-relevant fields of a nurse Task row (clinic/models.py,
class Task): `is_done`, the nullable `done_at` timestamp, and the price. -/
structure TaskRec where
  is_done : Bool
  done_at : Option Nat
  price : Int
  deriving DecidableEq, Repr

/-- The database state a nurse-task save operates on: the stored task row
(none before creation) and the task's nurse's `NurseIncome.daily_total`. -/
structure TaskState where
  stored : Option TaskRec
  dailyTotal : Int
  deriving DecidableEq, Repr

/-- A full `Task.save()` pipeline (clinic/models.py): the pre_save receiver
`set_done_at_on_completion` (lines 543-566) stamps `done_at` on the
false→true transition (and, for new rows, defaults a zero price from the
nurse's truthy `rate_per_task`) and records `_mark_done_transition`; the row
is written; the post_save receiver `increment_nurse_income_on_task_done`
(lines 677-686) adds the task's price to `NurseIncome.daily_total` exactly
when `_mark_done_transition` is set or the row was created already done.
(The other post_save receiver, `update_salary_on_task_save`, only touches
NurseDailySalary and is modelled separately.) -/
def taskSave (st : TaskState) (inst : TaskRec) (rate : Int) (now : Nat) : TaskState :=
  match st.stored with
  | none =>
      let i1 := if inst.is_done ∧ inst.done_at = none then
                  { inst with done_at := some now } else inst
      let i2 := if i1.price = 0 ∧ rate ≠ 0 then { i1 with price := rate } else i1
      let transitioned := i2.is_done
      { stored := some i2,
        dailyTotal := if transitioned then st.dailyTotal + i2.price else st.dailyTotal }
  | some prev =>
      let i1 := if inst.is_done ∧ ¬ prev.is_done ∧ inst.done_at = none then
                  { inst with done_at := some now } else inst
      let transitioned := ¬ prev.is_done ∧ inst.is_done
      { stored := some i1,
        dailyTotal := if transitioned then st.dailyTotal + i1.price else st.dailyTotal }

/-- `Task` deletion: the post_delete receiver `update_salary_on_task_delete`
(clinic/models.py lines 574-576) only recalculates NurseDailySalary; no
receiver touches `NurseIncome.daily_total` on delete. -/
def taskDelete (st : TaskState) : TaskState :=
  { st with stored := none }

/-- A treatment schedule's fields used by task validation (clinic/models.py,
class Schedule). -/
structure ScheduleRec where
  assignedNurse : Nat
  startDate : Nat
  endDate : Nat
  deriving DecidableEq, Repr

/-- Task validation failures raised by `TaskSerializer.validate`. -/
inductive TaskError where
  | alreadyDone
  | nurseMismatch
  | dayOutOfRange
  deriving DecidableEq, Repr

/-- `TaskSerializer.validate` (clinic/serializers.py lines 507-520), with
the `attrs.get(...) or getattr(self.instance, ...)` fallbacks already
resolved into `schedule`, `nurse`, `day`: reject re-marking an already-done
task as done; require the nurse to match the schedule's assigned nurse;
require the day to lie within the schedule's date range. -/
def taskValidate (instIsDone : Bool) (schedule : Option ScheduleRec)
    (nurse : Option Nat) (day : Option Nat) (attrsIsDone : Option Bool) :
    Option TaskError :=
  if instIsDone ∧ attrsIsDone = some true then some .alreadyDone
  else if (match schedule, nurse with
           | some s, some n => s.assignedNurse != n
           | _, _ => false : Bool) then some .nurseMismatch
  else if (match schedule, day with
           | some s, some d => decide (d < s.startDate) || decide (d > s.endDate)
           | _, _ => false : Bool) then some .dayOutOfRange
  else none

/-- Claim C3: the false→true completion transition of a stored nurse task
adds the task's price to `NurseIncome.daily_total` exactly once; saving a
task that is already done leaves the total unchanged; deleting a completed
task leaves the total unchanged. -/
theorem c3_nurse_income_one_shot (st : TaskState) (inst : TaskRec)
    (rate : Int) (now : Nat) :
    (∀ prev, st.stored = some prev → prev.is_done = false → inst.is_done = true →
      (taskSave st inst rate now).dailyTotal = st.dailyTotal + inst.price)
    ∧ (∀ prev, st.stored = some prev → prev.is_done = true →
      (taskSave st inst rate now).dailyTotal = st.dailyTotal)
    ∧ (taskDelete st).dailyTotal = st.dailyTotal := by
  refine ⟨?_, ?_, rfl⟩
  · intro prev hs hprev hinst
    unfold taskSave
    rw [hs]
    by_cases hd : inst.done_at = none <;> simp [hprev, hinst, hd]
  · intro prev hs hprev
    unfold taskSave
    rw [hs]
    simp [hprev]

/-- Witness for C3 at concrete inputs: completing a stored pending task of
price 25 raises the daily total from 5 to 30; re-saving a done task keeps
it; deleting keeps it. -/
theorem c3_nurse_income_one_shot_witness :
    (taskSave ⟨some ⟨false, none, 25⟩, 5⟩ ⟨true, none, 25⟩ 10 3).dailyTotal = 5 + 25
      ∧ (taskSave ⟨some ⟨true, some 3, 25⟩, 30⟩ ⟨true, some 3, 25⟩ 10 4).dailyTotal = 30
      ∧ (taskDelete ⟨some ⟨true, some 3, 25⟩, 30⟩).dailyTotal = 30 := by
  refine ⟨?_, ?_, ?_⟩
  · exact (c3_nurse_income_one_shot ⟨some ⟨false, none, 25⟩, 5⟩
      ⟨true, none, 25⟩ 10 3).1 ⟨false, none, 25⟩ rfl rfl rfl
  · exact (c3_nurse_income_one_shot ⟨some ⟨true, some 3, 25⟩, 30⟩
      ⟨true, some 3, 25⟩ 10 4).2.1 ⟨true, some 3, 25⟩ rfl rfl
  · exact (c3_nurse_income_one_shot ⟨some ⟨true, some 3, 25⟩, 30⟩
      ⟨true, some 3, 25⟩ 10 4).2.2

/-- Claim C10: on an already-done task, validation accepts `is_done = false`
and rejects only re-marking as done; saving the task back to not-done keeps
the stored `done_at` and does not decrement the nurse's daily total; a
subsequent save setting `is_done` back to true counts as a fresh completion
transition and adds the task's price again. -/
theorem c10_undo_redo_double_count (st : TaskState) (prev : TaskRec)
    (s : ScheduleRec) (n d : Nat) (rate : Int) (now1 now2 : Nat)
    (hs : st.stored = some prev) (hdone : prev.is_done = true)
    (hn : s.assignedNurse = n) (hd1 : s.startDate ≤ d) (hd2 : d ≤ s.endDate) :
    taskValidate true (some s) (some n) (some d) (some false) = none
    ∧ taskValidate true (some s) (some n) (some d) (some true) = some .alreadyDone
    ∧ (taskSave st { prev with is_done := false } rate now1).stored
        = some { prev with is_done := false }
    ∧ (taskSave st { prev with is_done := false } rate now1).dailyTotal = st.dailyTotal
    ∧ (taskSave (taskSave st { prev with is_done := false } rate now1)
        { prev with is_done := true } rate now2).dailyTotal
        = st.dailyTotal + prev.price := by
  refine ⟨?_, ?_, ?_, ?_, ?_⟩
  · unfold taskValidate
    have h1 : ¬ d < s.startDate := Nat.not_lt.mpr hd1
    have h2 : ¬ d > s.endDate := Nat.not_lt.mpr hd2
    simp [hn, h1, h2]
  · unfold taskValidate
    simp
  · unfold taskSave
    rw [hs]
    simp
  · unfold taskSave
    rw [hs]
    simp
  · have h1 : (taskSave st { prev with is_done := false } rate now1)
        = { stored := some { prev with is_done := false },
            dailyTotal := st.dailyTotal } := by
      unfold taskSave
      rw [hs]
      simp
    rw [h1]
    unfold taskSave
    by_cases hdn : prev.done_at = none <;> simp [hdn]

/-- Witness for C10 at concrete inputs: a done task of price 40 with
`done_at = some 2`, set back to pending and then completed again, ends with
the nurse's daily total raised from 40 to 80 while validation accepted the
un-done update and rejected the duplicate done request. -/
theorem c10_undo_redo_double_count_witness :
    taskValidate true (some ⟨7, 1, 9⟩) (some 7) (some 5) (some false) = none
    ∧ taskValidate true (some ⟨7, 1, 9⟩) (some 7) (some 5) (some true)
        = some .alreadyDone
    ∧ (taskSave ⟨some ⟨true, some 2, 40⟩, 40⟩ ⟨false, some 2, 40⟩ 10 6).stored
        = some ⟨false, some 2, 40⟩
    ∧ (taskSave ⟨some ⟨true, some 2, 40⟩, 40⟩ ⟨false, some 2, 40⟩ 10 6).dailyTotal = 40
    ∧ (taskSave (taskSave ⟨some ⟨true, some 2, 40⟩, 40⟩ ⟨false, some 2, 40⟩ 10 6)
        ⟨true, some 2, 40⟩ 10 8).dailyTotal = 40 + 40 :=
  c10_undo_redo_double_count ⟨some ⟨true, some 2, 40⟩, 40⟩ ⟨true, some 2, 40⟩
    ⟨7, 1, 9⟩ 7 5 10 6 8 rfl rfl rfl (by decide) (by decide)

/-! ## Doctor tasks: set_doctor_task_defaults, increment_doctor_income_on_done -/

/-- The completion-relevant fields of a DoctorTask row (clinic/models.py,
class DoctorTask). -/
structure DoctorTaskRec where
  is_done : Bool
  done_at : Option Nat
  price : Int
  deriving DecidableEq, Repr

/-- The database state a doctor-task save operates on: the stored row (none
before creation) and the doctor's `DoctorIncome.monthly_total`. -/
structure DoctorTaskState where
  stored : Option DoctorTaskRec
  monthlyTotal : Int
  deriving DecidableEq, Repr

/-- A full `DoctorTask.save()` pipeline (clinic/models.py): the pre_save
receiver `set_doctor_task_defaults` (lines 626-641) defaults a zero price
from the service's price on creation and stamps `done_at` on a false→true
transition — but, unlike the nurse-task pre_save, it never sets
`_mark_done_transition`; the post_save receiver
`increment_doctor_income_on_done` (lines 644-653) reads
`getattr(instance, "_mark_done_transition", False)`, which is therefore
always False, so the income increment fires only when `created and
instance.is_done`. -/
def doctorTaskSave (st : DoctorTaskState) (inst : DoctorTaskRec)
    (servicePrice : Int) (now : Nat) : DoctorTaskState :=
  match st.stored with
  | none =>
      let i1 := if inst.price = 0 then { inst with price := servicePrice } else inst
      let i2 := if i1.is_done ∧ i1.done_at = none then
                  { i1 with done_at := some now } else i1
      -- created and instance.is_done
      let transitioned := i2.is_done
      { stored := some i2,
        monthlyTotal := if transitioned then st.monthlyTotal + i2.price
                        else st.monthlyTotal }
  | some prev =>
      let i1 := if inst.is_done ∧ ¬ prev.is_done ∧ inst.done_at = none then
                  { inst with done_at := some now } else inst
      -- _mark_done_transition was never set and created is False: no increment
      { stored := some i1, monthlyTotal := st.monthlyTotal }

/-- Claim C4 (code bug): updating a stored pending doctor task of price 100
to done leaves `DoctorIncome.monthly_total` unchanged at 0, because the
DoctorTask pre_save receiver never sets `_mark_done_transition`; only
creating a task already done increments the total (here by 100). -/
theorem c4_doctor_income_update_not_incremented :
    (doctorTaskSave ⟨some ⟨false, none, 100⟩, 0⟩ ⟨true, none, 100⟩ 100 5).monthlyTotal
        = 0
      ∧ (doctorTaskSave ⟨none, 0⟩ ⟨true, none, 100⟩ 100 5).monthlyTotal = 100 := by
  decide

/-! ## Nurse daily salary: _recalculate_daily_salary -/

/-- The fields of a nurse task used by the daily-salary recompute: which
nurse, which day, and whether it is done. -/
structure SalaryTask where
  nurse : Nat
  day : Nat
  is_done : Bool
  deriving DecidableEq, Repr

/-- A NurseDailySalary row (clinic/models.py lines 483-498).  Its `date`
column is declared `DateField(auto_now_add=True)`: on INSERT Django
overwrites any supplied value with the current date. -/
structure SalaryRow where
  nurse : Nat
  date : Nat
  total_tasks : Nat
  completed_tasks : Nat
  salary : Int
  deriving DecidableEq, Repr

/-- The NurseDailySalary row stored for a given (nurse, day), if any. -/
def rowFor (rows : List SalaryRow) (nurse theDay : Nat) : Option SalaryRow :=
  rows.find? (fun r => r.nurse = nurse ∧ r.date = theDay)

/-- `_recalculate_daily_salary` (clinic/models.py lines 508-540), restricted
to its NurseDailySalary upsert: count the nurse's tasks on `theDay` and the
completed ones among them, compute `salary = rate * completed` (zero when
none completed), then `get_or_create(nurse=..., date=theDay, defaults=...)`
followed by a field update when the row existed.  When no (nurse, theDay)
row exists the create path runs, and because the `date` column has
`auto_now_add=True` the inserted row is stamped with `today`, not `theDay`;
if a (nurse, today) row already exists that insert violates the
(nurse, date) uniqueness constraint and the save fails (`none`). -/
def recalculateDailySalary (rows : List SalaryRow) (tasks : List SalaryTask)
    (nurse theDay : Nat) (rate : Int) (today : Nat) : Option (List SalaryRow) :=
  let qs := tasks.filter (fun t => t.nurse = nurse ∧ t.day = theDay)
  let total := qs.length
  let completed := (qs.filter (·.is_done)).length
  let salaryAmount : Int := if completed ≠ 0 then rate * completed else 0
  match rowFor rows nurse theDay with
  | some _ =>
      some (rows.map (fun r =>
        if r.nurse = nurse ∧ r.date = theDay then
          { r with total_tasks := total, completed_tasks := completed,
                   salary := salaryAmount }
        else r))
  | none =>
      if (rowFor rows nurse today).isSome then none
      else some (rows ++ [⟨nurse, today, total, completed, salaryAmount⟩])

/-- Claim C5 (code bug): when the recompute for (nurse, D) runs on the day D
itself the claimed row is produced — nurse 1 with `rate_per_task = 1000` and
3 tasks on day 10, 2 completed, yields the row (total_tasks 3,
completed_tasks 2, salary 2000) — but a recompute for a day other than the
current date stores the statistics under a row stamped with the current date
(`auto_now_add` overrides the requested day on insert), so no (nurse, D) row
is created: here a task saved for day 11 while today is 10 leaves
`rowFor _ 1 11 = none`. -/
theorem c5_daily_salary_recompute :
    recalculateDailySalary []
        [⟨1, 10, true⟩, ⟨1, 10, true⟩, ⟨1, 10, false⟩] 1 10 1000 10
      = some [⟨1, 10, 3, 2, 2000⟩]
    ∧ (recalculateDailySalary [] [⟨1, 11, false⟩] 1 11 1000 10
        = some [⟨1, 10, 1, 0, 0⟩]
      ∧ (rowFor [⟨1, 10, 1, 0, 0⟩] 1 11) = none) := by
  decide

/-! ## Room allocator: StationaryRoom.save and
MedicalCardSerializer._apply_stationary_room_updates -/

/-- A StationaryRoom row (clinic/models.py, class StationaryRoom):
occupancy flag, optionally bound pet, admission and release timestamps. -/
structure Room where
  rid : Nat
  is_occupied : Bool
  pet : Option Nat
  admission_date : Option Nat
  release_date : Option Nat
  deriving DecidableEq, Repr

/-- `StationaryRoom.save` (clinic/models.py lines 329-345): assigning a pet
to a free room flips `is_occupied` on, auto-stamps a missing
`admission_date` with now, and clears a `release_date` earlier than the
admission date; removing the pet from an occupied room flips `is_occupied`
off and auto-stamps a missing `release_date` with now. -/
def Room.save (r : Room) (now : Nat) : Room :=
  if r.pet ≠ none ∧ ¬ r.is_occupied then
    let adm := if r.admission_date = none then some now else r.admission_date
    let rel := match r.release_date, adm with
      | some rd, some ad => if rd < ad then none else some rd
      | rd, _ => rd
    { r with is_occupied := true, admission_date := adm, release_date := rel }
  else if r.pet = none ∧ r.is_occupied then
    { r with is_occupied := false,
             release_date := if r.release_date = none then some now
                             else r.release_date }
  else r

/-- Python `if new_value: field = new_value`: a caller-supplied value
overrides a stored one, a missing one keeps it (also the
`attrs.get(...) or getattr(self.instance, ...)` fallback pattern). -/
def optOverride {α : Type} (new old : Option α) : Option α :=
  match new with
  | some d => some d
  | none => old

/-- The `existing_room` handling of `_apply_stationary_room_updates`
(clinic/serializers.py lines 332-338): the first room other than the target
that still binds the card's pet is unbound (pet cleared, the card's release
date carried forward when given) and saved. -/
def clearFirstOther (rooms : List Room) (petId rid : Nat)
    (cardRel : Option Nat) (now : Nat) : List Room :=
  match rooms with
  | [] => []
  | r :: rest =>
      if r.pet = some petId ∧ ¬ r.rid = rid then
        Room.save { r with pet := none,
                           release_date := optOverride cardRel r.release_date } now
          :: rest
      else r :: clearFirstOther rest petId rid cardRel now

/-- The target-room update of `_apply_stationary_room_updates`
(clinic/serializers.py lines 339-349): link the pet, let caller-supplied
dates override stored ones, clear a release date earlier than the admission
date, then save the room. -/
def bindTarget (r : Room) (petId : Nat) (cardAdm cardRel : Option Nat)
    (now : Nat) : Room :=
  let r1 := { r with pet := some petId,
                     admission_date := optOverride cardAdm r.admission_date,
                     release_date := optOverride cardRel r.release_date }
  let r2 := match r1.admission_date, r1.release_date with
    | some a, some d => if d < a then { r1 with release_date := none } else r1
    | _, _ => r1
  Room.save r2 now

/-- `MedicalCardSerializer._apply_stationary_room_updates`
(clinic/serializers.py lines 319-349) over the set of rooms: nothing happens
without a card room; a room occupied by a different pet is left alone (the
guard returns); otherwise any pre-existing binding of the card's pet is
cleared first and the target room is then bound to the pet. -/
def applyStationaryRoomUpdates (rooms : List Room) (roomId : Option Nat)
    (petId : Nat) (cardAdm cardRel : Option Nat) (now : Nat) : List Room :=
  match roomId with
  | none => rooms
  | some rid =>
      match rooms.find? (fun r => r.rid = rid) with
      | none => rooms
      | some room =>
          if room.is_occupied ∧ room.pet ≠ none ∧ room.pet ≠ some petId then
            rooms
          else
            let rooms1 := clearFirstOther rooms petId rid cardRel now
            rooms1.map (fun r =>
              if r.rid = rid then bindTarget r petId cardAdm cardRel now else r)

/-- Invariant: a room is occupied exactly when a pet is bound to it. -/
def occInv (rooms : List Room) : Prop :=
  ∀ r ∈ rooms, r.is_occupied ↔ r.pet ≠ none

/-- Invariant: at most one room binds any given pet. -/
def uniqInv (rooms : List Room) : Prop :=
  ∀ p : Nat, rooms.countP (fun r => r.pet = some p) ≤ 1

/-- Room ids are pairwise distinct (database primary keys). -/
def ridsNodup (rooms : List Room) : Prop :=
  (rooms.map Room.rid).Nodup

theorem Room.save_pet (r : Room) (now : Nat) : (r.save now).pet = r.pet := by
  unfold Room.save
  by_cases hp : r.pet = none <;> by_cases ho : r.is_occupied <;> simp [hp, ho]

theorem Room.save_rid (r : Room) (now : Nat) : (r.save now).rid = r.rid := by
  unfold Room.save
  by_cases hp : r.pet = none <;> by_cases ho : r.is_occupied <;> simp [hp, ho]

/-- Any single `StationaryRoom.save` establishes the occupancy invariant. -/
theorem Room.save_occ (r : Room) (now : Nat) :
    (r.save now).is_occupied ↔ (r.save now).pet ≠ none := by
  unfold Room.save
  by_cases hp : r.pet = none <;> by_cases ho : r.is_occupied <;> simp [hp, ho]

theorem bindTarget_pet (r : Room) (petId : Nat) (cardAdm cardRel : Option Nat)
    (now : Nat) : (bindTarget r petId cardAdm cardRel now).pet = some petId := by
  unfold bindTarget
  rcases hA : optOverride cardAdm r.admission_date with _ | a <;>
    rcases hR : optOverride cardRel r.release_date with _ | d <;>
      simp [hA, hR, Room.save_pet]
  by_cases h : d < a <;> simp [h, Room.save_pet]

theorem bindTarget_rid (r : Room) (petId : Nat) (cardAdm cardRel : Option Nat)
    (now : Nat) : (bindTarget r petId cardAdm cardRel now).rid = r.rid := by
  unfold bindTarget
  rcases hA : optOverride cardAdm r.admission_date with _ | a <;>
    rcases hR : optOverride cardRel r.release_date with _ | d <;>
      simp [hA, hR, Room.save_rid]
  by_cases h : d < a <;> simp [h, Room.save_rid]

theorem bindTarget_occ (r : Room) (petId : Nat) (cardAdm cardRel : Option Nat)
    (now : Nat) :
    (bindTarget r petId cardAdm cardRel now).is_occupied ↔
      (bindTarget r petId cardAdm cardRel now).pet ≠ none := by
  unfold bindTarget
  rcases hA : optOverride cardAdm r.admission_date with _ | a <;>
    rcases hR : optOverride cardRel r.release_date with _ | d <;>
      simp [hA, hR, Room.save_occ]

/-- Members of `clearFirstOther` are either the saved cleared room or
original members. -/
theorem mem_clearFirstOther {rooms : List Room} {petId rid : Nat}
    {cardRel : Option Nat} {now : Nat} {r' : Room}
    (h : r' ∈ clearFirstOther rooms petId rid cardRel now) :
    (∃ r0, r' = Room.save r0 now) ∨ r' ∈ rooms := by
  induction rooms with
  | nil => simp [clearFirstOther] at h
  | cons r rest ih =>
      unfold clearFirstOther at h
      by_cases hc : r.pet = some petId ∧ ¬ r.rid = rid
      · rw [if_pos hc] at h
        rcases List.mem_cons.mp h with h1 | h1
        · exact Or.inl ⟨_, h1⟩
        · exact Or.inr (List.mem_cons_of_mem _ h1)
      · rw [if_neg hc] at h
        rcases List.mem_cons.mp h with h1 | h1
        · exact Or.inr (h1 ▸ List.mem_cons_self r rest)
        · rcases ih h1 with h2 | h2
          · exact Or.inl h2
          · exact Or.inr (List.mem_cons_of_mem _ h2)

/-- `clearFirstOther` never changes room ids or their order. -/
theorem clearFirstOther_rids (rooms : List Room) (petId rid : Nat)
    (cardRel : Option Nat) (now : Nat) :
    (clearFirstOther rooms petId rid cardRel now).map Room.rid
      = rooms.map Room.rid := by
  induction rooms with
  | nil => rfl
  | cons r rest ih =>
      unfold clearFirstOther
      by_cases hc : r.pet = some petId ∧ ¬ r.rid = rid
      · rw [if_pos hc]
        simp [Room.save_rid]
      · rw [if_neg hc]
        simp [ih]

/-- With pairwise-distinct room ids, at most one room has a given id. -/
theorem countP_rid_le_one (rooms : List Room) (rid : Nat)
    (h : (rooms.map Room.rid).Nodup) :
    rooms.countP (fun r => r.rid = rid) ≤ 1 := by
  induction rooms with
  | nil => simp
  | cons r rest ih =>
      simp only [List.map_cons, List.nodup_cons] at h
      by_cases hr : r.rid = rid
      · have hz : rest.countP (fun r => r.rid = rid) = 0 := by
          rw [List.countP_eq_zero]
          intro a ha
          simp only [decide_eq_true_eq]
          intro hA
          have hm : a.rid ∈ rest.map Room.rid := List.mem_map_of_mem Room.rid ha
          rw [hA, ← hr] at hm
          exact h.1 hm
        rw [List.countP_cons, hz]
        simp [hr]
      · rw [List.countP_cons]
        simp only [hr, decide_False, if_false, Nat.add_zero]
        exact ih h.2

/-- After the clearing pass, no room other than the target still binds the
pet, provided at most one room bound it to begin with. -/
theorem clearFirstOther_no_other_holder (rooms : List Room) (petId rid : Nat)
    (cardRel : Option Nat) (now : Nat)
    (h : rooms.countP (fun r => r.pet = some petId) ≤ 1) :
    ∀ r' ∈ clearFirstOther rooms petId rid cardRel now,
      ¬ r'.rid = rid → ¬ r'.pet = some petId := by
  induction rooms with
  | nil => simp [clearFirstOther]
  | cons r rest ih =>
      intro r' hr' hrid
      unfold clearFirstOther at hr'
      by_cases hc : r.pet = some petId ∧ ¬ r.rid = rid
      · rw [if_pos hc] at hr'
        rcases List.mem_cons.mp hr' with h1 | h1
        · subst h1
          rw [Room.save_pet]
          simp
        · have hcons : (r :: rest).countP (fun r => r.pet = some petId)
              = rest.countP (fun r => r.pet = some petId) + 1 := by
            rw [List.countP_cons]
            simp [hc.1]
          have hz : rest.countP (fun r => r.pet = some petId) = 0 := by
            omega
          intro hp
          exact (List.countP_eq_zero.mp hz r' h1) (by simp [hp])
      · rw [if_neg hc] at hr'
        rcases List.mem_cons.mp hr' with h1 | h1
        · subst h1
          intro hp
          exact hc ⟨hp, hrid⟩
        · have hrest : rest.countP (fun r => r.pet = some petId) ≤ 1 :=
            Nat.le_trans
              (List.countP_tail_le (fun r => decide (r.pet = some petId))
                (r :: rest)) h
          exact ih hrest r' h1 hrid

/-- The clearing pass never increases the number of rooms binding any pet. -/
theorem clearFirstOther_countP_le (rooms : List Room) (petId rid : Nat)
    (cardRel : Option Nat) (now : Nat) (p : Nat) :
    (clearFirstOther rooms petId rid cardRel now).countP
        (fun r => r.pet = some p)
      ≤ rooms.countP (fun r => r.pet = some p) := by
  induction rooms with
  | nil => simp [clearFirstOther]
  | cons r rest ih =>
      unfold clearFirstOther
      by_cases hc : r.pet = some petId ∧ ¬ r.rid = rid
      · rw [if_pos hc]
        rw [List.countP_cons, List.countP_cons]
        have hnone : (Room.save { r with pet := none,
                                         release_date := optOverride cardRel r.release_date } now).pet
            = none := by
          rw [Room.save_pet]
        rw [hnone]
        simp
      · rw [if_neg hc]
        rw [List.countP_cons, List.countP_cons]
        omega

/-- Claim C7: binding a pet to free room R1 and then to free room R2 leaves
R1 freed (not occupied, no pet) and R2 occupied with the pet; and every
room-binding operation preserves the invariants that a room is occupied
exactly when a pet is bound and that at most one room binds a given pet —
any pre-existing binding is cleared before the new one is created. -/
theorem c7_room_binding_exclusivity :
    (applyStationaryRoomUpdates
        (applyStationaryRoomUpdates
          [⟨1, false, none, none, none⟩, ⟨2, false, none, none, none⟩]
          (some 1) 5 (some 100) none 100)
        (some 2) 5 (some 200) none 200
      = [⟨1, false, none, some 100, some 200⟩, ⟨2, true, some 5, some 200, none⟩])
    ∧ ∀ (rooms : List Room) (roomId : Option Nat) (petId : Nat)
        (cardAdm cardRel : Option Nat) (now : Nat),
        occInv rooms → uniqInv rooms → ridsNodup rooms →
        occInv (applyStationaryRoomUpdates rooms roomId petId cardAdm cardRel now)
        ∧ uniqInv (applyStationaryRoomUpdates rooms roomId petId cardAdm cardRel now) := by
  constructor
  · decide
  · intro rooms roomId petId cardAdm cardRel now hOcc hUniq hNodup
    cases roomId with
    | none => exact ⟨hOcc, hUniq⟩
    | some rid =>
        cases hF : rooms.find? (fun r => r.rid = rid) with
        | none =>
            have hred : applyStationaryRoomUpdates rooms (some rid) petId
                cardAdm cardRel now = rooms := by
              unfold applyStationaryRoomUpdates
              dsimp only
              rw [hF]
            rw [hred]
            exact ⟨hOcc, hUniq⟩
        | some room =>
            have hred : applyStationaryRoomUpdates rooms (some rid) petId
                  cardAdm cardRel now
                = if room.is_occupied ∧ room.pet ≠ none ∧ room.pet ≠ some petId
                  then rooms
                  else (clearFirstOther rooms petId rid cardRel now).map
                    (fun r => if r.rid = rid then
                      bindTarget r petId cardAdm cardRel now else r) := by
              unfold applyStationaryRoomUpdates
              dsimp only
              rw [hF]
            rw [hred]
            by_cases hg : room.is_occupied ∧ room.pet ≠ none ∧ room.pet ≠ some petId
            · rw [if_pos hg]
              exact ⟨hOcc, hUniq⟩
            · rw [if_neg hg]
              constructor
              · intro r' hr'
                obtain ⟨r1, hr1, hfr⟩ := List.mem_map.mp hr'
                by_cases h : r1.rid = rid
                · rw [if_pos h] at hfr
                  rw [← hfr]
                  exact bindTarget_occ r1 petId cardAdm cardRel now
                · rw [if_neg h] at hfr
                  rw [← hfr]
                  rcases mem_clearFirstOther hr1 with ⟨r0, hr0⟩ | hmem
                  · rw [hr0]
                    exact Room.save_occ r0 now
                  · exact hOcc r1 hmem
              · intro p
                rw [List.countP_map]
                by_cases hp : p = petId
                · subst hp
                  have h1 : (clearFirstOther rooms p rid cardRel now).countP
                        ((fun r => decide (r.pet = some p)) ∘ fun r =>
                          if r.rid = rid then bindTarget r p cardAdm cardRel now
                          else r)
                      ≤ (clearFirstOther rooms p rid cardRel now).countP
                          (fun r => r.rid = rid) := by
                    apply List.countP_mono_left
                    intro a ha hpa
                    simp only [Function.comp_apply, decide_eq_true_eq] at hpa
                    by_cases hA : a.rid = rid
                    · simp [hA]
                    · rw [if_neg hA] at hpa
                      exact absurd hpa
                        (clearFirstOther_no_other_holder rooms p rid cardRel now
                          (hUniq p) a ha hA)
                  have h2 : (clearFirstOther rooms p rid cardRel now).countP
                        (fun r => r.rid = rid) ≤ 1 := by
                    apply countP_rid_le_one
                    rw [clearFirstOther_rids]
                    exact hNodup
                  exact Nat.le_trans h1 h2
                · have h1 : (clearFirstOther rooms petId rid cardRel now).countP
                        ((fun r => decide (r.pet = some p)) ∘ fun r =>
                          if r.rid = rid then bindTarget r petId cardAdm cardRel now
                          else r)
                      ≤ (clearFirstOther rooms petId rid cardRel now).countP
                          (fun r => r.pet = some p) := by
                    apply List.countP_mono_left
                    intro a ha hpa
                    simp only [Function.comp_apply, decide_eq_true_eq] at hpa
                    by_cases hA : a.rid = rid
                    · rw [if_pos hA, bindTarget_pet] at hpa
                      exact absurd (Option.some.inj hpa).symm hp
                    · rw [if_neg hA] at hpa
                      simp [hpa]
                  have h2 := clearFirstOther_countP_le rooms petId rid cardRel now p
                  exact Nat.le_trans h1 (Nat.le_trans h2 (hUniq p))

/-- Witness for C7's invariant-preservation part at concrete inputs: both
invariants hold after binding pet 5 to room 2 in a two-room store. -/
theorem c7_room_binding_exclusivity_witness :
    occInv (applyStationaryRoomUpdates
        [⟨1, false, none, none, none⟩, ⟨2, false, none, none, none⟩]
        (some 2) 5 (some 30) none 30)
      ∧ uniqInv (applyStationaryRoomUpdates
          [⟨1, false, none, none, none⟩, ⟨2, false, none, none, none⟩]
          (some 2) 5 (some 30) none 30) :=
  c7_room_binding_exclusivity.2
    [⟨1, false, none, none, none⟩, ⟨2, false, none, none, none⟩]
    (some 2) 5 (some 30) none 30
    (by unfold occInv; decide)
    (by intro p; simp [List.countP_cons])
    (by unfold ridsNodup; decide)

/-! ## Priced service selection: MedicalCardSerializer._apply_services_priced -/

/-- The distinguishable validation failures raised by
`_apply_services_priced` (clinic/serializers.py lines 360-392): unknown
service, price differing from a fixed-price service's base price, price
outside a ranged service's [price, price_up_to] interval. -/
inductive SelError where
  | notFound
  | invalidPrice
  | priceOutOfRange
  deriving DecidableEq, Repr

/-- `Service.objects.get(pk=svc_id)` over the service catalog. -/
def findService (catalog : List Service) (sid : Nat) : Option Service :=
  catalog.find? (fun s => s.sid = sid)

/-- The loop body of `_apply_services_priced` for one requested
(service_id, price) pair: look the service up, validate the price against
the fixed or ranged contract, and only then upsert the selection row. -/
def applyOneSel (catalog : List Service) (links : List ServiceLink)
    (sel : Nat × Int) : List ServiceLink × Option SelError :=
  match findService catalog sel.1 with
  | none => (links, some .notFound)
  | some svc =>
      match svc.price_up_to with
      | none =>
          if sel.2 ≠ svc.price then (links, some .invalidPrice)
          else (setLink links ⟨sel.1, sel.2⟩, none)
      | some high =>
          if sel.2 < svc.price ∨ sel.2 > high then (links, some .priceOutOfRange)
          else (setLink links ⟨sel.1, sel.2⟩, none)

/-- `_apply_services_priced` over the whole request: pairs are processed in
order, each one being validated and applied before the next is looked at;
the first failure aborts the loop, leaving the mutations of the earlier
pairs in place. -/
def applyServicesPriced (catalog : List Service) (links : List ServiceLink) :
    List (Nat × Int) → List ServiceLink × Option SelError
  | [] => (links, none)
  | sel :: rest =>
      match applyOneSel catalog links sel with
      | (links2, none) => applyServicesPriced catalog links2 rest
      | (links2, some e) => (links2, some e)

/-- Counterexample to claim C6 as stated: with two fixed-price services
(base 100 each), the request [(service 1, 100), (service 2, 99)] fails with
the invalid-price error, yet the selection row for service 1 has already
been applied — the failure does not occur before every selection mutation. -/
theorem c6_failure_after_mutation :
    (applyServicesPriced [⟨1, 100, none⟩, ⟨2, 100, none⟩] [] [(1, 100), (2, 99)]).2
        = some SelError.invalidPrice
      ∧ (applyServicesPriced [⟨1, 100, none⟩, ⟨2, 100, none⟩] []
          [(1, 100), (2, 99)]).1
        = [⟨1, 100⟩] := by
  decide

/-- Claim C6 (amended): for every requested (service, price) pair, an
unknown service fails with the not-found error; a service without
`price_up_to` accepts the pair exactly when the price equals its base
price, failing otherwise; a service with `price_up_to` accepts exactly when
base ≤ price ≤ price_up_to, failing with the out-of-range error otherwise;
a failing pair is rejected before its own mutation is applied and aborts
the rest of the request, while earlier valid pairs of the same request have
already been applied. -/
theorem c6_priced_selection_validation (catalog : List Service)
    (links : List ServiceLink) (sel : Nat × Int) :
    (findService catalog sel.1 = none →
      applyOneSel catalog links sel = (links, some .notFound))
    ∧ (∀ svc, findService catalog sel.1 = some svc → svc.price_up_to = none →
        (sel.2 = svc.price →
          applyOneSel catalog links sel = (setLink links ⟨sel.1, sel.2⟩, none))
        ∧ (sel.2 ≠ svc.price →
          applyOneSel catalog links sel = (links, some .invalidPrice)))
    ∧ (∀ svc high, findService catalog sel.1 = some svc →
        svc.price_up_to = some high →
        (svc.price ≤ sel.2 ∧ sel.2 ≤ high →
          applyOneSel catalog links sel = (setLink links ⟨sel.1, sel.2⟩, none))
        ∧ (sel.2 < svc.price ∨ sel.2 > high →
          applyOneSel catalog links sel = (links, some .priceOutOfRange)))
    ∧ (∀ rest links2 e, applyOneSel catalog links sel = (links2, some e) →
        applyServicesPriced catalog links (sel :: rest) = (links2, some e))
    ∧ (∀ rest links2, applyOneSel catalog links sel = (links2, none) →
        applyServicesPriced catalog links (sel :: rest)
          = applyServicesPriced catalog links2 rest) := by
  refine ⟨?_, ?_, ?_, ?_, ?_⟩
  · intro h
    unfold applyOneSel
    rw [h]
  · intro svc hf hup
    unfold applyOneSel
    rw [hf]
    constructor
    · intro he
      simp [hup, he]
    · intro hne
      simp [hup, hne]
  · intro svc high hf hup
    unfold applyOneSel
    rw [hf]
    constructor
    · intro hin
      have h1 : ¬ sel.2 < svc.price := Int.not_lt.mpr hin.1
      have h2 : ¬ sel.2 > high := Int.not_lt.mpr hin.2
      simp [hup, h1, h2]
    · intro hout
      simp [hup, hout]
  · intro rest links2 e h
    conv_lhs => unfold applyServicesPriced
    rw [h]
  · intro rest links2 h
    conv_lhs => unfold applyServicesPriced
    rw [h]

/-- Witness for C6 (amended) at concrete inputs, matching the spec's
example: a service with base 100 and `price_up_to` 150 accepts price 125 and
rejects price 151 with the out-of-range error, and the rejection aborts a
request without applying the failing pair. -/
theorem c6_priced_selection_validation_witness :
    applyOneSel [⟨1, 100, some 150⟩] [] (1, 125) = ([⟨1, 125⟩], none)
      ∧ applyOneSel [⟨1, 100, some 150⟩] [] (1, 151)
        = ([], some SelError.priceOutOfRange)
      ∧ applyServicesPriced [⟨1, 100, some 150⟩] [] [(1, 151), (1, 125)]
        = ([], some SelError.priceOutOfRange) := by
  refine ⟨?_, ?_, ?_⟩
  · exact ((c6_priced_selection_validation [⟨1, 100, some 150⟩] [] (1, 125)).2.2.1
      ⟨1, 100, some 150⟩ 150 rfl rfl).1 (by decide)
  · exact ((c6_priced_selection_validation [⟨1, 100, some 150⟩] [] (1, 151)).2.2.1
      ⟨1, 100, some 150⟩ 150 rfl rfl).2 (by decide)
  · exact (c6_priced_selection_validation [⟨1, 100, some 150⟩] [] (1, 151)).2.2.2.1
      [(1, 125)] [] SelError.priceOutOfRange
      (((c6_priced_selection_validation [⟨1, 100, some 150⟩] [] (1, 151)).2.2.1
        ⟨1, 100, some 150⟩ 150 rfl rfl).2 (by decide))

/-! ## Card-level validation: MedicalCardSerializer.validate -/

/-- A pet row: id and owning client (clinic/models.py, class Pet). -/
structure PetRec where
  pid : Nat
  clientId : Nat
  deriving DecidableEq, Repr

/-- The validation failures raised by `MedicalCardSerializer.validate`
(clinic/serializers.py lines 286-317). -/
inductive CardError where
  | petNotOwned
  | revisitInPast
  | roomOccupied
  | admissionDateRequired
  | releaseBeforeAdmission
  deriving DecidableEq, Repr

/-- `MedicalCardSerializer.validate` (clinic/serializers.py lines 286-317):
the pet must belong to the client; the revisit date may not be in the past;
a newly assigned room must be free and come with an admission date; and
when both `room_admission_date` and `room_release_date` are supplied, a
release date earlier than the admission date is rejected. -/
def cardValidate (attrsClient : Option Nat) (attrsPet : Option PetRec)
    (attrsRevisit : Option Nat) (attrsRoom : Option Room)
    (attrsAdmission attrsRelease : Option Nat)
    (instClient : Option Nat) (instPet : Option PetRec)
    (instRoomId : Option Nat) (today : Nat) : Option CardError :=
  let client := optOverride attrsClient instClient
  let pet := optOverride attrsPet instPet
  let releaseCheck : Option CardError :=
    if (match attrsAdmission, attrsRelease with
        | some a, some rl => decide (rl < a)
        | _, _ => false : Bool) then some .releaseBeforeAdmission
    else none
  if (match client, pet with
      | some c, some p => p.clientId != c
      | _, _ => false : Bool) then some .petNotOwned
  else if (match attrsRevisit with
      | some d => decide (d < today)
      | none => false : Bool) then some .revisitInPast
  else
    match attrsRoom with
    | some newRoom =>
        if (match instRoomId with
            | some i => i != newRoom.rid
            | none => true : Bool) then
          if newRoom.is_occupied then some .roomOccupied
          else if attrsAdmission = none then some .admissionDateRequired
          else releaseCheck
        else releaseCheck
    | none => releaseCheck

/-- Counterexample to claim C8 as stated: a room assignment that supplies
admission date 10 and release date 5 through the card serializer is rejected
with the release-before-admission error — it does not succeed with a null
release date. -/
theorem c8_rejected_at_validation :
    cardValidate none none none (some ⟨1, false, none, none, none⟩)
        (some 10) (some 5) none none none 0
      = some CardError.releaseBeforeAdmission := by
  decide

/-- Claim C8 (amended): when card validation sees both dates, a release
date earlier than the admission date is rejected with an error; when the
invalid release date reaches `StationaryRoom.save` on a pet assignment, the
release date is silently cleared to null and the assignment succeeds (the
room ends up occupied). -/
theorem c8_release_date_policy (room : Room) (a rl today : Nat)
    (r : Room) (b c now : Nat)
    (hocc : room.is_occupied = false) (hlt : rl < a)
    (hp : r.pet ≠ none) (ho : r.is_occupied = false)
    (ha : r.admission_date = some b) (hr : r.release_date = some c)
    (hbc : c < b) :
    cardValidate none none none (some room) (some a) (some rl)
        none none none today
      = some CardError.releaseBeforeAdmission
    ∧ (r.save now).release_date = none
    ∧ (r.save now).is_occupied = true := by
  refine ⟨?_, ?_, ?_⟩
  · unfold cardValidate
    simp [optOverride, hocc, hlt]
  · unfold Room.save
    simp [hp, ho, ha, hr, hbc]
  · unfold Room.save
    simp [hp, ho, ha, hr, hbc]

/-- Witness for C8 (amended) at concrete inputs: admission 10 with release
5 is rejected by validation, while a direct save of a newly assigned room
carrying admission 10 and release 5 clears the release date and occupies
the room. -/
theorem c8_release_date_policy_witness :
    cardValidate none none none (some ⟨1, false, none, none, none⟩)
        (some 10) (some 5) none none none 3
      = some CardError.releaseBeforeAdmission
    ∧ (Room.save ⟨2, false, some 7, some 10, some 5⟩ 20).release_date = none
    ∧ (Room.save ⟨2, false, some 7, some 10, some 5⟩ 20).is_occupied = true :=
  c8_release_date_policy ⟨1, false, none, none, none⟩ 10 5 3
    ⟨2, false, some 7, some 10, some 5⟩ 10 5 20
    rfl (by decide) (by decide) rfl rfl rfl (by decide)

end Clinic
